import Mathlib

/-!
Verification of the sheet-scribe enrichment pipeline.

The development shallowly embeds the core of the repository:
`identifyNameColumn`, `searchAndExtractData` and `processData` from
`src/components/DataProcessor.tsx`, the response-cleaning step of
`GeminiService.extractContactInfo` from `src/services/GeminiService.ts`,
and `getChangedRows` from the results viewer.

Modelling conventions:
- A JS object is an ordered association list `List (String × α)`;
  property read is `lookupKV`, property write is `assign` (replace in
  place, else append), which matches JS key-ordering semantics.
- React `useState` setters are modelled as immediate updates on an
  explicit `PState` record threaded through the functions.  External
  control clicks (pause / stop) are a schedule `Nat → Option CtrlEvent`
  giving the event that becomes visible at the top of loop iteration `i`
  (JS is single threaded, so handlers only run during the per-row awaits
  and their effects are observed at the next loop boundary).
- The two external clients are oracles: a `ClientBehavior` per row index
  describing the discovery and extraction outcomes, including thrown
  exceptions, which are routed through `Except`.
-/

namespace SheetScribe

/-- A spreadsheet row: a JS object mapping column names to cell strings,
in key-insertion order. -/
abbrev Row := List (String × String)

/-- A table is an ordered list of rows. -/
abbrev Table := List Row

/-- JS property read `o[k]`: first binding of the key, `none` = undefined. -/
def lookupKV : List (String × α) → String → Option α
  | [], _ => none
  | (k1, v1) :: rest, k => if k1 = k then some v1 else lookupKV rest k

/-- JS property write `o[k] = v`: overwrite the existing binding in place,
or append a fresh key at the end. -/
def assign : List (String × α) → String → α → List (String × α)
  | [], k, v => [(k, v)]
  | (k1, v1) :: rest, k, v =>
    if k1 = k then (k1, v) :: rest else (k1, v1) :: assign rest k v

/-- JS spread `{...o1, ...o2}`: assign every binding of `o2` onto `o1`. -/
def objSpread (o1 o2 : List (String × α)) : List (String × α) :=
  o2.foldl (fun acc kv => assign acc kv.1 kv.2) o1

/-- A parsed JSON value: a string, or anything that is not a string
(number, object, array, null, boolean), whose shape the cleaning step
never inspects. -/
inductive JValue
  | str (s : String)
  | other
deriving DecidableEq

/-- Drop leading whitespace characters. -/
def dropLeadWS : List Char → List Char
  | [] => []
  | c :: cs => if c.isWhitespace then dropLeadWS cs else c :: cs

/-- JS `String.prototype.trim` (on the ASCII whitespace the data uses):
strip leading and trailing whitespace. -/
def jsTrim (s : String) : String :=
  ⟨(dropLeadWS (dropLeadWS s.data).reverse).reverse⟩

/-- JS `String.prototype.toLowerCase` on the ASCII range the column
names and sentinel test use. -/
def jsToLower (s : String) : String :=
  ⟨s.data.map Char.toLower⟩

/-- Condition under which `GeminiService.extractContactInfo` keeps a raw
string field: `value.trim() !== '' && value.toLowerCase() !== 'not found'`
(the sentinel test is on the untrimmed value). -/
def keepField (v : String) : Bool :=
  jsTrim v != "" && jsToLower v != "not found"

/-- The cleaning loop of `extractContactInfo`:
`Object.entries(extractedData).forEach(...)` assigning
`cleanedData[key] = value.trim()` for every kept string field. -/
def cleanFields (raw : List (String × JValue)) : List (String × String) :=
  raw.foldl
    (fun acc kv =>
      match kv.2 with
      | .str v => if keepField v then assign acc kv.1 (jsTrim v) else acc
      | .other => acc)
    []

/-- Whether the pattern is an initial segment of the character list. -/
def leadsWith : List Char → List Char → Bool
  | [], _ => true
  | _ :: _, [] => false
  | p :: ps, c :: cs => p == c && leadsWith ps cs

/-- Whether the pattern occurs contiguously in the character list. -/
def hasInfix (pat : List Char) : List Char → Bool
  | [] => leadsWith pat []
  | c :: cs => leadsWith pat (c :: cs) || hasInfix pat cs

/-- JS `String.prototype.includes`. -/
def strIncludes (s pat : String) : Bool :=
  hasInfix pat.data s.data

/-- The keyword set of `identifyNameColumn`. -/
def nameKeywords : List String := ["name", "company", "incubator", "organization"]

/-- A column is a candidate when its lowercased name includes a keyword. -/
def isCandidate (col : String) : Bool :=
  nameKeywords.any (fun kw => strIncludes (jsToLower col) kw)

/-- `identifyNameColumn` from DataProcessor.tsx: empty table gives `''`;
otherwise filter the first row's columns by the keyword test and take the
first match, falling back to the first column (`nameColumns[0] || columns[0]`;
candidates are never falsy, and on a table whose first row has no columns
at all the JS value `undefined` is rendered as the empty identifier). -/
def identifyNameColumn (data : Table) : String :=
  match data with
  | [] => ""
  | row :: _ =>
    let columns := row.map Prod.fst
    match (columns.filter isCandidate).head? with
    | some c => c
    | none => columns.headD ""

/-- Outcome of `FirecrawlService.searchAndScrapeEntity` for one row:
success with content, success whose `data.content` is missing/empty,
`success: false`, or a thrown exception (e.g. the constructor throwing
when the credential is missing). -/
inductive ScrapeOutcome
  | ok (content : String)
  | okNoContent
  | fail
  | thrown (msg : String)
deriving DecidableEq

/-- Outcome of the Gemini call inside `extractContactInfo` for one row:
a response whose first `{...}` span parses to the given key/value object,
a response with no parsable JSON span (also covering `JSON.parse`
failures, which the method catches itself), or a thrown exception. -/
inductive ExtractOutcome
  | parsed (raw : List (String × JValue))
  | noJson
  | thrown (msg : String)
deriving DecidableEq

/-- The behavior of both external clients on one row. -/
structure ClientBehavior where
  scrape : ScrapeOutcome
  extract : ExtractOutcome
deriving DecidableEq

/-- `GeminiService.extractContactInfo`: clean the parsed object, return
`{}` when no JSON span parses, and rethrow client errors
(`throw new Error('Failed to extract data: ...')`). -/
def extractContactInfo (o : ExtractOutcome) : Except String (List (String × String)) :=
  match o with
  | .parsed raw => .ok (cleanFields raw)
  | .noJson => .ok []
  | .thrown m => .error ("Failed to extract data: " ++ m)

/-- The body of `searchAndExtractData`'s try block: scrape, bail out with
`{}` on failure or missing content, otherwise extract (which may throw). -/
def sAEDtry (b : ClientBehavior) : Except String (List (String × String)) :=
  match b.scrape with
  | .thrown m => .error m
  | .fail => .ok []
  | .okNoContent => .ok []
  | .ok _ => extractContactInfo b.extract

/-- `searchAndExtractData` from DataProcessor.tsx: the try body wrapped in
the catch-all that degrades any error to `{}`. -/
def searchAndExtractData (b : ClientBehavior) : Except String (List (String × String)) :=
  match sAEDtry b with
  | .ok fs => .ok fs
  | .error _ => .ok []

/-- The `setSuccessCount(prev => prev + 1)` increment performed inside
`searchAndExtractData` when at least one field was extracted (skipped when
the extraction call threw). -/
def succDelta (b : ClientBehavior) : Nat :=
  match sAEDtry b with
  | .ok fs => if fs.length > 0 then 1 else 0
  | .error _ => 0

/-- Whether the extraction client is reached for this row: only after a
scrape success with content. -/
def extractionAttempted (b : ClientBehavior) : Bool :=
  match b.scrape with
  | .ok _ => true
  | _ => false

/-- The component state touched by the pipeline: the `useState` hooks
`isPaused`, `isProcessing`, `currentRow`, `processedResults` and
`successCount` of DataProcessor.tsx. -/
structure PState where
  isPaused : Bool
  isProcessing : Bool
  currentRow : Nat
  processedResults : List Row
  successCount : Nat
deriving DecidableEq

/-- `handlePause`: set the pause flag, clear the processing flag. -/
def handlePause (st : PState) : PState :=
  { st with isPaused := true, isProcessing := false }

/-- `handleStop`: clear both flags and reset the cursor to 0 (it also
emits `onUpdate({status:'idle', progress:0})`, an output outside
`processData`). -/
def handleStop (st : PState) : PState :=
  { st with isPaused := false, isProcessing := false, currentRow := 0 }

/-- A user control click delivered while the loop awaits. -/
inductive CtrlEvent
  | pause
  | stop
deriving DecidableEq

/-- Effect of a (possibly absent) control event on the state. -/
def applyCtrl (e : Option CtrlEvent) (st : PState) : PState :=
  match e with
  | none => st
  | some .pause => handlePause st
  | some .stop => handleStop st

/-- One non-blank row inside the loop's try/catch: build the enriched row
`{...row, ...extractedData}`; the catch branch pushes the original row and
is flagged in the second component. -/
def rowStep (row : Row) (b : ClientBehavior) : Row × Bool :=
  match searchAndExtractData b with
  | .ok fs => (objSpread row fs, false)
  | .error _ => (row, true)

/-- JS `!entityName || entityName.trim() === ''` (an undefined cell —
missing column — is blank, and `''` is the only falsy string). -/
def blankEntity : Option String → Bool
  | none => true
  | some s => s == "" || jsTrim s == ""

/-- The loop-visible data of one `processData` invocation: the component
state plus the local `results` array and the observational outputs —
indices for which the discovery client was invoked (`dlog`), indices for
which the extraction client was invoked (`elog`), and the numerators
`i + 1` of emitted `onUpdate` progress reports (`upds`). -/
structure LoopSt where
  st : PState
  results : List Row
  dlog : List Nat
  elog : List Nat
  upds : List Nat
deriving DecidableEq

/-- The row iteration `for (let i = currentRow; i < data.length; i++)` of
`processData`, over the pending suffix of the table with `i` the absolute
index.  At each boundary the scheduled control event (if any) is applied,
then the pause flag is checked; a set flag breaks the loop.  A blank
entity pushes the row unchanged and continues without client calls or a
progress report.  Otherwise the row is enriched via `searchAndExtractData`
and a progress report is emitted (the catch branch would push the original
row without a report).  When the pending list is exhausted the event
arriving during the last row is still applied: `processData`'s final
`if (!isPaused)` reads the then-current flag. -/
def loopFrom (nameCol : String) (oracle : Nat → ClientBehavior)
    (sched : Nat → Option CtrlEvent) : List Row → Nat → LoopSt → LoopSt
  | [], i, ls => { ls with st := applyCtrl (sched i) ls.st }
  | row :: rest, i, ls =>
    let st := applyCtrl (sched i) ls.st
    if st.isPaused then { ls with st := st }
    else
      let st := { st with currentRow := i }
      if blankEntity (lookupKV row nameCol) then
        loopFrom nameCol oracle sched rest (i + 1)
          { ls with st := st, results := ls.results ++ [row] }
      else
        let b := oracle i
        let step := rowStep row b
        loopFrom nameCol oracle sched rest (i + 1)
          { st := { st with successCount := st.successCount + succDelta b }
            results := ls.results ++ [step.1]
            dlog := ls.dlog ++ [i]
            elog := ls.elog ++ (if extractionAttempted b then [i] else [])
            upds := ls.upds ++ (if step.2 then [] else [i + 1]) }

/-- The two early-return errors of `processData`: the empty-table toast
and the missing-credentials toast. -/
inductive StartError
  | noData
  | missingKeys
deriving DecidableEq

/-- Everything one `processData` invocation produces: the final component
state, the local `results` array, the client-call and progress logs, the
`onComplete` invocations with their payloads, and the early error if the
run never started. -/
structure RunResult where
  st : PState
  results : List Row
  dlog : List Nat
  elog : List Nat
  upds : List Nat
  completions : List (List Row)
  error : Option StartError
deriving DecidableEq

/-- `processData` from DataProcessor.tsx.  Guards: empty table, then
missing credentials — both return before any state update.  Otherwise set
the processing flags, reset the success counter, emit the initial
progress report, resolve the name column, run the loop from the stored
cursor with a fresh local `results` array, store the results, clear the
processing flag, and call `onComplete(results)` unless the pause flag is
set. -/
def processData (data : Table) (geminiKey firecrawlKey : Option String)
    (oracle : Nat → ClientBehavior) (sched : Nat → Option CtrlEvent)
    (st : PState) : RunResult :=
  if data.length == 0 then
    ⟨st, [], [], [], [], [], some .noData⟩
  else if geminiKey.isNone || firecrawlKey.isNone then
    ⟨st, [], [], [], [], [], some .missingKeys⟩
  else
    let st1 := { st with isProcessing := true, isPaused := false, successCount := 0 }
    let nameCol := identifyNameColumn data
    let ls := loopFrom nameCol oracle sched (data.drop st1.currentRow) st1.currentRow
      ⟨st1, [], [], [], [0]⟩
    let st2 := { ls.st with processedResults := ls.results, isProcessing := false }
    { st := st2
      results := ls.results
      dlog := ls.dlog
      elog := ls.elog
      upds := ls.upds
      completions := if st2.isPaused then [] else [ls.results]
      error := none }

/-- `handleStart`: resume from pause by clearing the flag, otherwise reset
the cursor and clear previous results (and the log), then run
`processData`. -/
def handleStart (data : Table) (geminiKey firecrawlKey : Option String)
    (oracle : Nat → ClientBehavior) (sched : Nat → Option CtrlEvent)
    (st : PState) : RunResult :=
  if st.isPaused then
    processData data geminiKey firecrawlKey oracle sched { st with isPaused := false }
  else
    processData data geminiKey firecrawlKey oracle sched
      { st with currentRow := 0, processedResults := [] }

/-- Whether a processed row counts as changed in `getChangedRows`: no
index-aligned original row, or some key of the processed row whose value
differs from the original's (`processedRow[key] !== originalRow[key]`). -/
def rowChanged (origRow : Option Row) (procRow : Row) : Bool :=
  match origRow with
  | none => true
  | some o => procRow.any (fun kv => lookupKV o kv.1 != some kv.2)

/-- `getChangedRows` from the results viewer: empty when either table is
empty, otherwise the index-aligned filter of the processed rows. -/
def getChangedRows (origData procData : Table) : Table :=
  if origData.length == 0 || procData.length == 0 then []
  else
    (procData.enum.filter (fun p => rowChanged origData[p.1]? p.2)).map Prod.snd

/-- Written from the spec's words for the entity-column resolver: the
first column (in declaration order of the first row) whose lowercased
name contains one of the keywords; the first column when none matches;
the empty identifier on an empty table. -/
def specResolveEntityColumn (data : Table) : String :=
  match data with
  | [] => ""
  | row :: _ =>
    let columns := row.map Prod.fst
    match columns.find? isCandidate with
    | some c => c
    | none => columns.headD ""

/-- Written from the claim's words for the changed-row set: exactly the
processed rows that differ from the index-aligned original row, a row
with no original counterpart counting as changed — with no emptiness
guard. -/
def specChangedRows (origData procData : Table) : Table :=
  (procData.enum.filter (fun p => rowChanged origData[p.1]? p.2)).map Prod.snd

/-- Written from the claim's words for the cleaned extraction result: the
string-valued entries that pass the keep test, in order, with trimmed
values. -/
def specCleanFields (raw : List (String × JValue)) : List (String × String) :=
  raw.filterMap
    (fun kv =>
      match kv.2 with
      | .str v => if keepField v then some (kv.1, jsTrim v) else none
      | .other => none)

/-- Concrete scenario material: a discovery/extraction behavior that
always succeeds and yields one e-mail field. -/
def okBehavior : ClientBehavior :=
  ⟨.ok "web content", .parsed [("email", JValue.str "info@acme.com")]⟩

/-- Oracle using `okBehavior` on every row. -/
def oracleOK : Nat → ClientBehavior := fun _ => okBehavior

/-- Schedule with no control clicks. -/
def schedNone : Nat → Option CtrlEvent := fun _ => none

/-- Schedule with a pause click observed at loop boundary `k`. -/
def pauseAt (k : Nat) : Nat → Option CtrlEvent :=
  fun i => if i = k then some CtrlEvent.pause else none

/-- Schedule with a stop click observed at loop boundary `k`. -/
def stopAt (k : Nat) : Nat → Option CtrlEvent :=
  fun i => if i = k then some CtrlEvent.stop else none

/-- The idle initial component state. -/
def st0 : PState := ⟨false, false, 0, [], 0⟩

def rowA : Row := [("name", "Acme")]

def rowB : Row := [("name", "Beta")]

def rowC : Row := [("name", "Cyra")]

/-- The enrichment `okBehavior` produces on a row. -/
def enrich (row : Row) : Row := row ++ [("email", "info@acme.com")]

def data3 : Table := [rowA, rowB, rowC]

def data2 : Table := [rowA, rowB]

def gkey : Option String := some "gemini-key"

def fkey : Option String := some "firecrawl-key"

/-- C1 scenario, first run: start fresh on the 3-row table; a pause click
is observed at boundary 2, i.e. the user paused while row 1 was in
flight. -/
def c1run1 : RunResult := handleStart data3 gkey fkey oracleOK (pauseAt 2) st0

/-- C1 scenario, second run: resume the paused run and let it finish. -/
def c1run2 : RunResult := handleStart data3 gkey fkey oracleOK schedNone c1run1.st

/-- C2 scenario, first run: start fresh on the 2-row table; a pause click
is observed at boundary 1, i.e. the user paused while row 0 was in
flight. -/
def c2run1 : RunResult := handleStart data2 gkey fkey oracleOK (pauseAt 1) st0

/-- C2 scenario, second run: resume the paused run and let it finish. -/
def c2run2 : RunResult := handleStart data2 gkey fkey oracleOK schedNone c2run1.st

/-- C3 scenario: start fresh on the 2-row table; a stop click is observed
at boundary 1, i.e. the user stopped while row 0 was in flight. -/
def c3run : RunResult := handleStart data2 gkey fkey oracleOK (stopAt 1) st0

/-- A paused mid-run state: cursor at 1, one partial result stored. -/
def stPaused : PState := ⟨true, false, 1, [rowA], 0⟩

/-- An empty loop snapshot over the idle state. -/
def lsW : LoopSt := ⟨st0, [], [], [], []⟩

/-- A row whose entity cell is whitespace-only. -/
def rowBlank : Row := [("name", "   ")]

/-- A raw extraction object with unique keys: a padded e-mail, a
non-string value, and a sentinel. -/
def rawSample : List (String × JValue) :=
  [("email", JValue.str " info@acme.com "), ("phone", JValue.other),
   ("website", JValue.str "not found")]

/-- A one-row original table for the aggregator witness. -/
def origSample : Table := [[("name", "Acme")]]

/-- Its enriched counterpart. -/
def procSample : Table := [[("name", "Acme"), ("email", "info@acme.com")]]

/-! ### Helper lemmas -/

theorem head?_filter (p : α → Bool) (l : List α) :
    (l.filter p).head? = l.find? p := by
  induction l with
  | nil => rfl
  | cons a t ih =>
    cases h : p a with
    | true => simp [List.filter_cons, List.find?_cons, h]
    | false => simp [List.filter_cons, List.find?_cons, h, ih]

theorem lookupKV_assign (o : List (String × α)) (k : String) (v : α) (k2 : String) :
    lookupKV (assign o k v) k2 = if k = k2 then some v else lookupKV o k2 := by
  induction o with
  | nil =>
    by_cases h : k = k2 <;> simp [assign, lookupKV, h]
  | cons hd tl ih =>
    obtain ⟨k1, v1⟩ := hd
    by_cases h1 : k1 = k
    · subst h1
      by_cases h2 : k1 = k2 <;> simp [assign, lookupKV, h2]
    · by_cases h2 : k1 = k2
      · subst h2
        have hk : ¬ k = k1 := fun h => h1 h.symm
        simp [assign, lookupKV, h1, hk]
      · simp [assign, lookupKV, h1, h2, ih]

theorem lookupKV_eq_none (l : List (String × α)) (k : String)
    (h : k ∉ l.map Prod.fst) : lookupKV l k = none := by
  induction l with
  | nil => rfl
  | cons hd tl ih =>
    obtain ⟨k1, v1⟩ := hd
    simp only [List.map_cons, List.mem_cons] at h
    push_neg at h
    have h1 : k1 ≠ k := fun he => h.1 he.symm
    simp [lookupKV, h1, ih h.2]

theorem lookupKV_objSpread (ext : List (String × String)) (o : List (String × String))
    (k : String) (hext : (ext.map Prod.fst).Nodup) :
    lookupKV (objSpread o ext) k =
      match lookupKV ext k with
      | some w => some w
      | none => lookupKV o k := by
  induction ext generalizing o with
  | nil => simp [objSpread, lookupKV]
  | cons hd tl ih =>
    obtain ⟨k1, v1⟩ := hd
    simp only [List.map_cons, List.nodup_cons] at hext
    have hstep : objSpread o ((k1, v1) :: tl) = objSpread (assign o k1 v1) tl := by
      simp [objSpread, List.foldl_cons]
    rw [hstep, ih (assign o k1 v1) hext.2]
    by_cases h : k1 = k
    · subst h
      have htl : lookupKV tl k1 = none := lookupKV_eq_none tl k1 hext.1
      simp [lookupKV, htl, lookupKV_assign]
    · simp only [lookupKV, if_neg h]
      cases htl : lookupKV tl k with
      | some w => simp
      | none => simp [lookupKV_assign, h]

theorem lookupKV_of_mem (l : List (String × α)) (k : String) (v : α)
    (hn : (l.map Prod.fst).Nodup) (hm : (k, v) ∈ l) : lookupKV l k = some v := by
  induction l with
  | nil => cases hm
  | cons hd tl ih =>
    obtain ⟨k1, v1⟩ := hd
    simp only [List.map_cons, List.nodup_cons] at hn
    cases hm with
    | head => simp [lookupKV]
    | tail _ hm2 =>
      have hk : k1 ≠ k := by
        intro he
        subst he
        exact hn.1 (List.mem_map.2 ⟨(k1, v), hm2, rfl⟩)
      simp [lookupKV, hk, ih hn.2 hm2]

theorem assign_of_not_mem (acc : List (String × α)) (k : String) (v : α)
    (h : k ∉ acc.map Prod.fst) : assign acc k v = acc ++ [(k, v)] := by
  induction acc with
  | nil => rfl
  | cons hd tl ih =>
    obtain ⟨k1, v1⟩ := hd
    simp only [List.map_cons, List.mem_cons] at h
    push_neg at h
    have h1 : k1 ≠ k := fun he => h.1 he.symm
    simp [assign, h1, ih h.2]

theorem cleanFields_foldl (raw : List (String × JValue)) (acc : List (String × String))
    (hd : ∀ kv ∈ raw, kv.1 ∉ acc.map Prod.fst)
    (hn : (raw.map Prod.fst).Nodup) :
    raw.foldl
      (fun acc kv =>
        match kv.2 with
        | .str v => if keepField v then assign acc kv.1 (jsTrim v) else acc
        | .other => acc)
      acc = acc ++ specCleanFields raw := by
  induction raw generalizing acc with
  | nil => simp [specCleanFields]
  | cons kv tl ih =>
    obtain ⟨k, jv⟩ := kv
    simp only [List.map_cons, List.nodup_cons] at hn
    cases jv with
    | other =>
      rw [List.foldl_cons]
      have := ih acc (fun kv2 h2 => hd kv2 (List.mem_cons_of_mem _ h2)) hn.2
      simpa [specCleanFields] using this
    | str v =>
      rw [List.foldl_cons]
      dsimp only
      by_cases hk : keepField v
      · have hknot : k ∉ acc.map Prod.fst := hd (k, .str v) (List.mem_cons_self _ _)
        have hacc2 : ∀ kv2 ∈ tl, kv2.1 ∉ (acc ++ [(k, jsTrim v)]).map Prod.fst := by
          intro kv2 h2
          simp only [List.map_append, List.mem_append, List.map_cons, List.map_nil,
            List.mem_singleton]
          push_neg
          refine ⟨hd kv2 (List.mem_cons_of_mem _ h2), ?_⟩
          intro he
          exact hn.1 (he ▸ List.mem_map.2 ⟨kv2, h2, rfl⟩)
        have := ih (acc ++ [(k, jsTrim v)]) hacc2 hn.2
        rw [if_pos hk, assign_of_not_mem acc k (jsTrim v) hknot, this]
        simp [specCleanFields, hk]
      · have := ih acc (fun kv2 h2 => hd kv2 (List.mem_cons_of_mem _ h2)) hn.2
        rw [if_neg hk, this]
        simp [specCleanFields, hk]

/-! ### Claims -/

/-- C1: the spec's row-count invariant — a completed run delivers exactly
one output row per input row in order, regardless of pause/resume — fails
on the code: on the 3-row table, pausing while row 1 is in flight and
resuming yields a completed run whose delivered table has 2 rows (the
resumed `processData` builds a fresh local `results` array starting at the
stored cursor, so the pre-pause rows are dropped). -/
theorem c1_resume_loses_rows :
    data3.length = 3 ∧ c1run2.completions = [[enrich rowB, enrich rowC]] := by
  constructor
  · rfl
  · decide

/-- C2: pause/resume correctness fails on the code: on the 2-row table,
pausing after row 0 was processed leaves `currentRow = 0` (the cursor
stores the last processed index, not the next unprocessed one), so the
resumed run invokes discovery for row 0 a second time. -/
theorem c2_resume_reprocesses_row :
    c2run1.dlog = [0] ∧ c2run2.dlog = [0, 1] ∧
      (c2run1.dlog ++ c2run2.dlog).count 0 = 2 := by
  decide

/-- C3: "the completion callback is never invoked for a stopped run"
fails on the code: the loop only tests `isPaused`, which `handleStop`
clears, so after a stop click during row 0 the loop runs to the end and
`onComplete` fires once with the full results. -/
theorem c3_stop_does_not_prevent_completion :
    c3run.completions = [[enrich rowA, enrich rowB]] := by
  decide

/-- C4 counterexample: the cleaning step keeps an e-mail value without an
"@" and a key outside the fixed attribute set, so the claimed field-level
validation does not hold. -/
theorem c4_counterexample :
    cleanFields [("email", JValue.str "contact page")] = [("email", "contact page")] ∧
      "contact page".data.contains '@' = false ∧
      cleanFields [("randomKey", JValue.str "kept")] = [("randomKey", "kept")] := by
  decide

/-- C4 amended: for a raw object with unique keys (as `JSON.parse`
produces), the cleaned result is exactly the string-valued entries that
are non-empty after trimming and whose lowercased value is not the
"not found" sentinel, with trimmed values — no key whitelist, no "@"
check, no URL check. -/
theorem c4_clean_characterization (raw : List (String × JValue))
    (h : (raw.map Prod.fst).Nodup) : cleanFields raw = specCleanFields raw := by
  have := cleanFields_foldl raw [] (by simp) h
  simpa [cleanFields] using this

theorem c4_clean_characterization_witness :
    ((rawSample.map Prod.fst).Nodup) ∧ cleanFields rawSample = specCleanFields rawSample :=
  ⟨by decide, c4_clean_characterization rawSample (by decide)⟩

/-- C5: a row whose entity cell is blank (undefined, empty or
whitespace-only) is appended to the results unchanged and the loop moves
on without invoking either client and without a progress report: the
discovery and extraction logs are untouched. -/
theorem c5_blank_row_passthrough (nameCol : String) (oracle : Nat → ClientBehavior)
    (sched : Nat → Option CtrlEvent) (row : Row) (rest : List Row) (i : Nat) (ls : LoopSt)
    (hblank : blankEntity (lookupKV row nameCol) = true)
    (hpause : (applyCtrl (sched i) ls.st).isPaused = false) :
    loopFrom nameCol oracle sched (row :: rest) i ls =
      loopFrom nameCol oracle sched rest (i + 1)
        { ls with st := { applyCtrl (sched i) ls.st with currentRow := i },
                  results := ls.results ++ [row] } := by
  simp [loopFrom, hpause, hblank]

theorem c5_blank_row_passthrough_witness :
    blankEntity (lookupKV rowBlank "name") = true ∧
      (applyCtrl (schedNone 0) lsW.st).isPaused = false ∧
      loopFrom "name" oracleOK schedNone (rowBlank :: []) 0 lsW =
        loopFrom "name" oracleOK schedNone [] 1
          { lsW with st := { applyCtrl (schedNone 0) lsW.st with currentRow := 0 },
                     results := lsW.results ++ [rowBlank] } :=
  ⟨by decide, by decide,
    c5_blank_row_passthrough "name" oracleOK schedNone rowBlank [] 0 lsW (by decide) (by decide)⟩

/-- C6: the non-destructive merge — for every column/value pair of the
original row, the enriched row `{...row, ...extractedData}` maps that
column to the extracted value when the extraction carries that exact
column name, and to the original value otherwise. -/
theorem c6_merge_nondestructive (row ext : List (String × String)) (k : String) (v : String)
    (hrow : (row.map Prod.fst).Nodup) (hext : (ext.map Prod.fst).Nodup)
    (hmem : (k, v) ∈ row) :
    lookupKV (objSpread row ext) k = some ((lookupKV ext k).getD v) := by
  rw [lookupKV_objSpread ext row k hext]
  cases hl : lookupKV ext k with
  | some w => simp
  | none => simp [lookupKV_of_mem row k v hrow hmem]

theorem c6_merge_nondestructive_witness :
    (([("name", "Acme"), ("city", "Pune")].map (Prod.fst (β := String))).Nodup) ∧
      (([("email", "info@acme.com")].map (Prod.fst (β := String))).Nodup) ∧
      ("city", "Pune") ∈ [("name", "Acme"), ("city", "Pune")] ∧
      lookupKV (objSpread [("name", "Acme"), ("city", "Pune")] [("email", "info@acme.com")])
          "city" =
        some ((lookupKV [("email", "info@acme.com")] "city").getD "Pune") :=
  ⟨by decide, by decide, by decide,
    c6_merge_nondestructive [("name", "Acme"), ("city", "Pune")] [("email", "info@acme.com")]
      "city" "Pune" (by decide) (by decide) (by decide)⟩

/-- C7: the entity-column resolver agrees with the spec's description on
every table: first keyword-matching column of the first row in
declaration order, first column as fallback, empty identifier on an empty
table. -/
theorem c7_resolver_matches_spec (data : Table) :
    identifyNameColumn data = specResolveEntityColumn data := by
  cases data with
  | nil => rfl
  | cons r t => simp [identifyNameColumn, specResolveEntityColumn, head?_filter]

/-- C8 counterexample: invoking start with a missing credential is not
transition-free — from a paused state the start handler clears the pause
flag before `processData` performs the credential check, so the state
changes. -/
theorem c8_counterexample :
    (handleStart data2 none fkey oracleOK schedNone stPaused).st ≠ stPaused := by
  decide

/-- C8 amended: `processData` itself, on a non-empty table with either
credential absent, fails with the configuration error and is a no-op: the
state is returned unchanged, no client call is made, no progress or
completion callback fires. -/
theorem c8_missing_keys_noop (data : Table) (gk fk : Option String)
    (oracle : Nat → ClientBehavior) (sched : Nat → Option CtrlEvent) (st : PState)
    (hdata : data ≠ []) (hkeys : gk = none ∨ fk = none) :
    processData data gk fk oracle sched st =
      ⟨st, [], [], [], [], [], some StartError.missingKeys⟩ := by
  cases data with
  | nil => exact absurd rfl hdata
  | cons r t =>
    cases hkeys with
    | inl h => subst h; simp [processData]
    | inr h => subst h; simp [processData]

theorem c8_missing_keys_noop_witness :
    data2 ≠ [] ∧ ((none : Option String) = none ∨ fkey = none) ∧
      processData data2 none fkey oracleOK schedNone st0 =
        ⟨st0, [], [], [], [], [], some StartError.missingKeys⟩ :=
  ⟨by decide, Or.inl rfl,
    c8_missing_keys_noop data2 none fkey oracleOK schedNone st0 (by decide) (Or.inl rfl)⟩

/-- C9 counterexample: with an empty original table the aggregator
returns the empty set, while the claim counts every processed row (no
counterpart) as changed. -/
theorem c9_counterexample :
    getChangedRows [] [[("a", "1")]] = [] ∧
      specChangedRows [] [[("a", "1")]] = [[("a", "1")]] ∧
      getChangedRows [] [[("a", "1")]] ≠ specChangedRows [] [[("a", "1")]] := by
  decide

/-- C9 amended: whenever both tables are non-empty, the changed-row set
is exactly the index-aligned set the claim describes (a processed row
with no original counterpart counts as changed); when either table is
empty the code returns the empty set. -/
theorem c9_changed_rows (origData procData : Table)
    (h1 : origData ≠ []) (h2 : procData ≠ []) :
    getChangedRows origData procData = specChangedRows origData procData := by
  cases origData with
  | nil => exact absurd rfl h1
  | cons a l =>
    cases procData with
    | nil => exact absurd rfl h2
    | cons b m => simp [getChangedRows, specChangedRows]

theorem c9_changed_rows_witness :
    origSample ≠ [] ∧ procSample ≠ [] ∧
      getChangedRows origSample procSample = specChangedRows origSample procSample :=
  ⟨by decide, by decide, c9_changed_rows origSample procSample (by decide) (by decide)⟩

/-- C10: for every behavior of the two clients — success, failure result
or thrown exception — `searchAndExtractData` returns a field mapping
(`Except.ok`) and never throws, so the per-row catch branch of the
pipeline loop is never taken for discovery or extraction errors. -/
theorem c10_search_extract_total :
    ∀ (b : ClientBehavior) (row : Row),
      (searchAndExtractData b).isOk = true ∧ (rowStep row b).2 = false := by
  intro b row
  obtain ⟨s, e⟩ := b
  cases s <;> cases e <;>
    simp [searchAndExtractData, sAEDtry, extractContactInfo, rowStep, Except.isOk,
      Except.toBool]

end SheetScribe
